import Mathlib

/-!
Shallow embedding of the `sarpa` command-line argument parsing library
(`src/lib.rs`) and verification of its specification.

The Rust library defines an ordered registry of argument definitions
(flags, value-bearing options, positional arguments), a token parser
`Parser::parse`, a required-argument validation pass `validate_args`,
a help renderer `generate_help`, and a typed accessor
`ParsedArgs::get_value_as`.  Tokens are Lean `String`s; the registry is
the list of `Argument`s in registration order; Rust's `HashSet`/`HashMap`
are modelled by lists with the same observable membership/lookup
behaviour; a `panic!`/`unreachable!` in the Rust code is modelled by the
distinguished outcome `panicked`.
-/

namespace Sarpa

/-- Kind of an argument definition (`enum ArgumentKind` in `src/lib.rs`). -/
inductive ArgumentKind where
  | Flag
  | Option
  | Positional
deriving DecidableEq, Repr

/-- An argument definition (`struct Argument` in `src/lib.rs`). -/
structure Argument where
  arg_type : ArgumentKind
  short_name : Option Char
  long_name : String
  help : String
  required : Bool
deriving DecidableEq, Repr

/-- Errors returned by the parser (`enum ArgParseError` in `src/lib.rs`). -/
inductive ArgParseError where
  | UnknownArgument (s : String)
  | MissingValueForOption (s : String)
  | OptionInMiddleOfGroup (s : String)
  | HelpRequested
  | MissingRequiredArgument (s : String)
deriving DecidableEq, Repr

/-- The parse result set (`struct ParsedArgs` in `src/lib.rs`).
`flags` models the `HashSet<String>` (observable only through
membership), `options` models the `HashMap<String, String>` (observable
only through `get`/`contains_key`, most recent insertion first), and
`positional` is the `Vec<String>` in encounter order. -/
structure ParsedArgs where
  flags : List String
  options : List (String × String)
  positional : List String
deriving DecidableEq, Repr

/-- `results.flags.insert(name)` — `HashSet` insertion (idempotent). -/
def insertFlag (n : String) (st : ParsedArgs) : ParsedArgs :=
  if n ∈ st.flags then st else { st with flags := n :: st.flags }

/-- `results.options.insert(name, value)` — `HashMap` insertion; the new
binding is consed on and shadows any previous binding of the same key. -/
def insertOption (n v : String) (st : ParsedArgs) : ParsedArgs :=
  { st with options := (n, v) :: st.options }

/-- `results.options.get(name)` — `HashMap` lookup (most recent binding). -/
def lookupOption (st : ParsedArgs) (n : String) : Option String :=
  st.options.lookup n

/-- `results.positional.push(arg)`. -/
def pushPositional (v : String) (st : ParsedArgs) : ParsedArgs :=
  { st with positional := st.positional ++ [v] }

/-- The empty `ParsedArgs` built at the start of `Parser::parse`. -/
def initParsed : ParsedArgs := ⟨[], [], []⟩

/-- `self.definitions.iter().find(|x| x.long_name == name)` — the
long-name lookup used in the `--`-prefixed branch of `parse`. -/
def findLong (defs : List Argument) (name : String) : Option Argument :=
  defs.find? (fun x => x.long_name == name)

/-- `self.definitions.iter().find(|x| x.short_name == Some(c))` — the
short-name lookup used in the short-cluster branch of `parse`. -/
def findShort (defs : List Argument) (c : Char) : Option Argument :=
  defs.find? (fun x => x.short_name == some c)

/-- Outcome of scanning one short-flag cluster: the per-character loop of
`parse` either updates the result state (possibly demanding a value for
a trailing option definition), fails, or hits the `unreachable!`. -/
inductive ClusterRes where
  | done (st : ParsedArgs) (need : Option Argument)
  | err (e : ArgParseError)
  | panicked
deriving DecidableEq, Repr

/-- The `for (i, char) in arg_without_prefix.chars().enumerate()` loop of
`Parser::parse`: each character is resolved left to right by
`findShort`; a `Flag` match records its long name and continues; an
`Option` match is legal only as the last character (`i == count - 1`),
in which case the cluster scan ends demanding a value for it
(`extract_option` consumes the next token — performed by the caller);
an `Option` match elsewhere fails with `OptionInMiddleOfGroup`; no
match fails with `UnknownArgument(char.to_string())`; a `Positional`
match hits the `unreachable!`. -/
def shortCluster (defs : List Argument) (st : ParsedArgs) :
    List Char → ClusterRes
  | [] => .done st none
  | c :: cs =>
    match findShort defs c with
    | none => .err (.UnknownArgument (String.mk [c]))
    | some d =>
      match d.arg_type with
      | .Flag => shortCluster defs (insertFlag d.long_name st) cs
      | .Option =>
        if cs = [] then .done st (some d)
        else .err (.OptionInMiddleOfGroup d.long_name)
      | .Positional => .panicked

/-- Outcome of the token-consuming `while` loop of `Parser::parse`.  -/
inductive LoopRes where
  | ok (st : ParsedArgs)
  | err (e : ArgParseError)
  | panicked
deriving DecidableEq, Repr

/-- The `while let Some(arg) = args.next()` loop of `Parser::parse`.
For each token: the `--help`/`-h` check runs first; a `--`-prefixed
token is resolved by `findLong` on the remainder (a `Flag` is recorded,
an `Option` consumes the next token via `extract_option` or fails with
`MissingValueForOption`, a `Positional` hits the `unreachable!`, no
match is `UnknownArgument(remainder)`); a `-`-prefixed token is scanned
as a short cluster by `shortCluster` (a trailing option definition then
consumes the next token or fails with `MissingValueForOption`); a bare
token is pushed onto `positional`. -/
def parseLoop (defs : List Argument) (st : ParsedArgs) :
    List String → LoopRes
  | [] => .ok st
  | arg :: rest =>
    if arg = "--help" ∨ arg = "-h" then .err .HelpRequested
    else
      match arg.data with
      | '-' :: '-' :: nameChars =>
        match findLong defs (String.mk nameChars) with
        | none => .err (.UnknownArgument (String.mk nameChars))
        | some d =>
          match d.arg_type with
          | .Flag => parseLoop defs (insertFlag d.long_name st) rest
          | .Option =>
            match rest with
            | v :: rest2 => parseLoop defs (insertOption d.long_name v st) rest2
            | [] => .err (.MissingValueForOption d.long_name)
          | .Positional => .panicked
      | '-' :: cluster =>
        match shortCluster defs st cluster with
        | .done st2 none => parseLoop defs st2 rest
        | .done st2 (some d) =>
          match rest with
          | v :: rest2 => parseLoop defs (insertOption d.long_name v st2) rest2
          | [] => .err (.MissingValueForOption d.long_name)
        | .err e => .err e
        | .panicked => .panicked
      | _ => parseLoop defs (pushPositional arg st) rest

/-- `def.required` satisfied check inside `Parser::validate_args`. -/
def was_provided (d : Argument) (st : ParsedArgs) : Bool :=
  match d.arg_type with
  | .Flag => st.flags.contains d.long_name
  | .Option => (lookupOption st d.long_name).isSome
  | .Positional => !st.positional.isEmpty

/-- `Parser::validate_args`: iterate the definitions in registration
order and return `MissingRequiredArgument` for the first required
definition that was not provided. -/
def validate_args : List Argument → ParsedArgs → Except ArgParseError Unit
  | [], _ => .ok ()
  | d :: ds, st =>
    if d.required && !(was_provided d st) then
      .error (.MissingRequiredArgument d.long_name)
    else validate_args ds st

/-- Rust `format!("{:<20}", s)`: left-align, pad with spaces to the given
width (no truncation when longer). -/
def padTo (s : String) (w : Nat) : String :=
  s ++ String.mk (List.replicate (w - s.length) ' ')

/-- The line `generate_help` renders for one flag/option definition:
`"  {short}{long:<20} {help}\n"` with `short` either `"-c, "` or four
spaces. -/
def optionHelpLine (d : Argument) : String :=
  let short :=
    match d.short_name with
    | some c => "-" ++ String.mk [c] ++ ", "
    | none => "    "
  "  " ++ short ++ padTo d.long_name 20 ++ " " ++ d.help ++ "\n"

/-- The line `generate_help` renders for one positional definition:
`"  {long:<22} {help}\n"`. -/
def positionalHelpLine (d : Argument) : String :=
  "  " ++ padTo d.long_name 22 ++ " " ++ d.help ++ "\n"

/-- `Parser::generate_help`.  `name` and `version` stand for the
compile-time constants `env!("CARGO_PKG_NAME")` and
`env!("CARGO_PKG_VERSION")`, which come from the package manifest
rather than the source file; the function emits a `"{name} {version}"`
line, the usage line, the flag/option section in registration order,
then the positional section in registration order. -/
def generate_help (name version : String) (defs : List Argument) : String :=
  name ++ " " ++ version ++ "\n"
    ++ "Usage: " ++ name ++ " [OPTIONS] [ARGUMENTS]\n"
    ++ "\nOptions:\n"
    ++ String.join (defs.filterMap (fun d =>
        match d.arg_type with
        | .Flag => some (optionHelpLine d)
        | .Option => some (optionHelpLine d)
        | .Positional => none))
    ++ "\nArguments:\n"
    ++ String.join (defs.filterMap (fun d =>
        match d.arg_type with
        | .Positional => some (positionalHelpLine d)
        | _ => none))

/-- Modelled from the spec: the byte-for-byte help template of §6 — a
`Usage: <program> [OPTIONS] [ARGUMENTS]` line, then the `Options:`
section (flags/options in registration order, short name or four
spaces, long name padded to 20 columns, help text), then the
`Arguments:` section (positionals in registration order, long name
padded to 22 columns, help text), and nothing else. -/
def specHelpTemplate (program : String) (defs : List Argument) : String :=
  "Usage: " ++ program ++ " [OPTIONS] [ARGUMENTS]\n"
    ++ "\nOptions:\n"
    ++ String.join (defs.filterMap (fun d =>
        match d.arg_type with
        | .Flag => some (optionHelpLine d)
        | .Option => some (optionHelpLine d)
        | .Positional => none))
    ++ "\nArguments:\n"
    ++ String.join (defs.filterMap (fun d =>
        match d.arg_type with
        | .Positional => some (positionalHelpLine d)
        | _ => none))

/-- `ParsedArgs::get_value_as::<T>`: look up the option's string value
and, if present, parse it with the target type's own textual parser
(`FromStr::from_str`, modelled by an explicit `String → Except E T`). -/
def get_value_as {T E : Type} (fromStr : String → Except E T)
    (pa : ParsedArgs) (name : String) : Option (Except E T) :=
  match lookupOption pa name with
  | none => none
  | some s => some (fromStr s)

/-- `Parser::add`: unconditionally push a fresh definition (empty help,
no short name, not required) — no uniqueness check of any kind. -/
def addArgument (defs : List Argument) (long_name : String)
    (k : ArgumentKind) : List Argument :=
  defs ++ [{ arg_type := k, short_name := none, long_name := long_name,
             help := "", required := false }]

/-- Result of `Parser::parse`, with `panicked` for the `unreachable!`. -/
inductive ParseResult where
  | ok (r : ParsedArgs)
  | err (e : ArgParseError)
  | panicked
deriving DecidableEq, Repr

/-- `Parser::parse`: skip the program name (`args.next()`), run the token
loop, then validate required arguments. -/
def parse (defs : List Argument) (args : List String) : ParseResult :=
  match parseLoop defs initParsed (args.drop 1) with
  | .ok st =>
    match validate_args defs st with
    | .ok _ => .ok st
    | .error e => .err e
  | .err e => .err e
  | .panicked => .panicked

/-- The registry of the Rust test `test_generate_help_message_formatting`:
one flag, one option, one positional, all with help text. -/
def helpTestDefs : List Argument :=
  [⟨.Flag, some 'a', "all", "List all items.", false⟩,
   ⟨.Option, some 'o', "output", "Specify output file.", false⟩,
   ⟨.Positional, none, "input", "The input file to process.", false⟩]

/-- A concrete textual-parse contract (stand-in for `u32: FromStr`):
a string of decimal digits parses to the number, anything else is a
parse error carrying the offending string. -/
def natFromStr (s : String) : Except String Nat :=
  if s.data ≠ [] ∧ s.data.all Char.isDigit then
    .ok (s.data.foldl (fun n c => 10 * n + (c.toNat - '0'.toNat)) 0)
  else .error s

/-- The `ParsedArgs` of the Rust test `test_get_value_as`. -/
def portRate : ParsedArgs :=
  ⟨[], [("port", "8080"), ("rate", "hello")], []⟩

theorem parseLoop_nil (defs : List Argument) (st : ParsedArgs) :
    parseLoop defs st [] = .ok st := rfl

theorem parseLoop_help (defs : List Argument) (st : ParsedArgs) (tok : String)
    (rest : List String) (h : tok = "--help" ∨ tok = "-h") :
    parseLoop defs st (tok :: rest) = .err .HelpRequested := by
  rcases h with rfl | rfl <;> (rw [parseLoop.eq_def]; simp)

theorem parseLoop_long_none (defs : List Argument) (st : ParsedArgs) (tok : String)
    (rest : List String) (nc : List Char)
    (hne : ¬(tok = "--help" ∨ tok = "-h"))
    (hdata : tok.data = '-' :: '-' :: nc)
    (hfind : findLong defs (String.mk nc) = none) :
    parseLoop defs st (tok :: rest) = .err (.UnknownArgument (String.mk nc)) := by
  rw [parseLoop.eq_def]
  simp only [if_neg hne, hdata, hfind]

theorem parseLoop_long_flag (defs : List Argument) (st : ParsedArgs) (tok : String)
    (rest : List String) (nc : List Char) (d : Argument)
    (hne : ¬(tok = "--help" ∨ tok = "-h"))
    (hdata : tok.data = '-' :: '-' :: nc)
    (hfind : findLong defs (String.mk nc) = some d)
    (hkind : d.arg_type = .Flag) :
    parseLoop defs st (tok :: rest) = parseLoop defs (insertFlag d.long_name st) rest := by
  rw [parseLoop.eq_def]
  simp only [if_neg hne, hdata, hfind, hkind]

theorem parseLoop_long_opt_val (defs : List Argument) (st : ParsedArgs) (tok : String)
    (v : String) (rest2 : List String) (nc : List Char) (d : Argument)
    (hne : ¬(tok = "--help" ∨ tok = "-h"))
    (hdata : tok.data = '-' :: '-' :: nc)
    (hfind : findLong defs (String.mk nc) = some d)
    (hkind : d.arg_type = .Option) :
    parseLoop defs st (tok :: v :: rest2) =
      parseLoop defs (insertOption d.long_name v st) rest2 := by
  rw [parseLoop.eq_def]
  simp only [if_neg hne, hdata, hfind, hkind]

theorem parseLoop_long_opt_end (defs : List Argument) (st : ParsedArgs) (tok : String)
    (nc : List Char) (d : Argument)
    (hne : ¬(tok = "--help" ∨ tok = "-h"))
    (hdata : tok.data = '-' :: '-' :: nc)
    (hfind : findLong defs (String.mk nc) = some d)
    (hkind : d.arg_type = .Option) :
    parseLoop defs st [tok] = .err (.MissingValueForOption d.long_name) := by
  rw [parseLoop.eq_def]
  simp only [if_neg hne, hdata, hfind, hkind]

theorem parseLoop_long_pos (defs : List Argument) (st : ParsedArgs) (tok : String)
    (rest : List String) (nc : List Char) (d : Argument)
    (hne : ¬(tok = "--help" ∨ tok = "-h"))
    (hdata : tok.data = '-' :: '-' :: nc)
    (hfind : findLong defs (String.mk nc) = some d)
    (hkind : d.arg_type = .Positional) :
    parseLoop defs st (tok :: rest) = .panicked := by
  rw [parseLoop.eq_def]
  simp only [if_neg hne, hdata, hfind, hkind]

theorem parseLoop_cluster (defs : List Argument) (st : ParsedArgs) (tok : String)
    (rest : List String) (cluster : List Char)
    (hne : ¬(tok = "--help" ∨ tok = "-h"))
    (hdata : tok.data = '-' :: cluster)
    (hcl : ∀ cs, cluster ≠ '-' :: cs) :
    parseLoop defs st (tok :: rest) =
      (match shortCluster defs st cluster with
      | .done st2 none => parseLoop defs st2 rest
      | .done st2 (some d) =>
        match rest with
        | v :: rest2 => parseLoop defs (insertOption d.long_name v st2) rest2
        | [] => .err (.MissingValueForOption d.long_name)
      | .err e => .err e
      | .panicked => .panicked) := by
  rw [parseLoop.eq_def]
  simp only [if_neg hne, hdata]

theorem parseLoop_bare (defs : List Argument) (st : ParsedArgs) (tok : String)
    (rest : List String)
    (hne : ¬(tok = "--help" ∨ tok = "-h"))
    (hnd : ∀ cs, tok.data ≠ '-' :: cs) :
    parseLoop defs st (tok :: rest) = parseLoop defs (pushPositional tok st) rest := by
  rw [parseLoop.eq_def]
  simp only [if_neg hne]
  split
  · rename_i nc heq
    exact absurd heq (hnd ('-' :: nc))
  · rename_i cl hnl heq
    exact absurd heq (hnd cl)
  · rfl

theorem parseLoop_append (defs : List Argument) (l pre : List String) (st : ParsedArgs) :
    ∀ st', parseLoop defs st pre = .ok st' →
      parseLoop defs st (pre ++ l) = parseLoop defs st' l := by
  induction st, pre using parseLoop.induct defs with
  | case1 st =>
    intro st' h
    rw [parseLoop_nil] at h
    injection h with h
    subst h
    rfl
  | case2 st arg rest hhelp =>
    intro st' h
    rw [parseLoop_help defs st arg rest hhelp] at h
    exact absurd h (by simp)
  | case3 st arg rest hne nc hdata hfind =>
    intro st' h
    rw [parseLoop_long_none defs st arg rest nc hne hdata hfind] at h
    exact absurd h (by simp)
  | case4 st arg rest hne nc hdata d hfind hkind ih =>
    intro st' h
    rw [parseLoop_long_flag defs st arg rest nc d hne hdata hfind hkind] at h
    rw [List.cons_append,
        parseLoop_long_flag defs st arg (rest ++ l) nc d hne hdata hfind hkind]
    exact ih st' h
  | case5 st arg hne nc hdata d hfind hkind v rest2 ih =>
    intro st' h
    rw [parseLoop_long_opt_val defs st arg v rest2 nc d hne hdata hfind hkind] at h
    rw [List.cons_append, List.cons_append,
        parseLoop_long_opt_val defs st arg v (rest2 ++ l) nc d hne hdata hfind hkind]
    exact ih st' h
  | case6 st arg hne nc hdata d hfind hkind =>
    intro st' h
    rw [parseLoop_long_opt_end defs st arg nc d hne hdata hfind hkind] at h
    exact absurd h (by simp)
  | case7 st arg rest hne nc hdata d hfind hkind =>
    intro st' h
    rw [parseLoop_long_pos defs st arg rest nc d hne hdata hfind hkind] at h
    exact absurd h (by simp)
  | case8 st arg rest hne cluster hcl hdata st2 hsc ih =>
    intro st' h
    rw [parseLoop_cluster defs st arg rest cluster hne hdata
          (fun cs hc => hcl cs hc)] at h
    rw [hsc] at h
    rw [List.cons_append,
        parseLoop_cluster defs st arg (rest ++ l) cluster hne hdata
          (fun cs hc => hcl cs hc), hsc]
    exact ih st' h
  | case9 st arg hne cluster hcl hdata st2 d hsc v rest2 ih =>
    intro st' h
    rw [parseLoop_cluster defs st arg (v :: rest2) cluster hne hdata
          (fun cs hc => hcl cs hc), hsc] at h
    rw [List.cons_append, List.cons_append,
        parseLoop_cluster defs st arg (v :: (rest2 ++ l)) cluster hne hdata
          (fun cs hc => hcl cs hc), hsc]
    exact ih st' h
  | case10 st arg hne cluster hcl hdata st2 d hsc =>
    intro st' h
    rw [parseLoop_cluster defs st arg [] cluster hne hdata
          (fun cs hc => hcl cs hc), hsc] at h
    exact absurd h (by simp)
  | case11 st arg rest hne cluster hcl hdata e hsc =>
    intro st' h
    rw [parseLoop_cluster defs st arg rest cluster hne hdata
          (fun cs hc => hcl cs hc), hsc] at h
    exact absurd h (by simp)
  | case12 st arg rest hne cluster hcl hdata hsc =>
    intro st' h
    rw [parseLoop_cluster defs st arg rest cluster hne hdata
          (fun cs hc => hcl cs hc), hsc] at h
    exact absurd h (by simp)
  | case13 st arg rest hne hnl hnc ih =>
    intro st' h
    rw [parseLoop_bare defs st arg rest hne (fun cs hc => hnc cs hc)] at h
    rw [List.cons_append,
        parseLoop_bare defs st arg (rest ++ l) hne (fun cs hc => hnc cs hc)]
    exact ih st' h

theorem shortCluster_none (defs : List Argument) (st : ParsedArgs)
    (c : Char) (cs : List Char) (h : findShort defs c = none) :
    shortCluster defs st (c :: cs) = .err (.UnknownArgument (String.mk [c])) := by
  rw [shortCluster.eq_def]
  simp only [h]

theorem shortCluster_flag (defs : List Argument) (st : ParsedArgs)
    (c : Char) (cs : List Char) (d : Argument)
    (h : findShort defs c = some d) (hk : d.arg_type = .Flag) :
    shortCluster defs st (c :: cs) = shortCluster defs (insertFlag d.long_name st) cs := by
  rw [shortCluster.eq_def]
  simp only [h, hk]

theorem shortCluster_opt_mid (defs : List Argument) (st : ParsedArgs)
    (c : Char) (cs : List Char) (d : Argument)
    (h : findShort defs c = some d) (hk : d.arg_type = .Option) (hcs : cs ≠ []) :
    shortCluster defs st (c :: cs) = .err (.OptionInMiddleOfGroup d.long_name) := by
  rw [shortCluster.eq_def]
  simp only [h, hk, if_neg hcs]

theorem shortCluster_opt_last (defs : List Argument) (st : ParsedArgs)
    (c : Char) (d : Argument)
    (h : findShort defs c = some d) (hk : d.arg_type = .Option) :
    shortCluster defs st [c] = .done st (some d) := by
  rw [shortCluster.eq_def]
  simp [h, hk]

theorem shortCluster_pos (defs : List Argument) (st : ParsedArgs)
    (c : Char) (cs : List Char) (d : Argument)
    (h : findShort defs c = some d) (hk : d.arg_type = .Positional) :
    shortCluster defs st (c :: cs) = .panicked := by
  rw [shortCluster.eq_def]
  simp only [h, hk]

theorem hne_of_long (tok : String) (nc : List Char)
    (hdata : tok.data = '-' :: '-' :: nc) (hhelp : tok ≠ "--help") :
    ¬(tok = "--help" ∨ tok = "-h") := by
  rintro (rfl | rfl)
  · exact hhelp rfl
  · rw [show ("-h".data) = ['-', 'h'] from rfl] at hdata
    injection hdata with _ h2
    injection h2 with h3 _
    exact absurd h3 (by decide)

theorem hne_of_cluster (tok : String) (cluster : List Char)
    (hdata : tok.data = '-' :: cluster) (hcl : ∀ cs, cluster ≠ '-' :: cs)
    (hh : tok ≠ "-h") : ¬(tok = "--help" ∨ tok = "-h") := by
  rintro (rfl | rfl)
  · rw [show ("--help".data) = '-' :: '-' :: ['h', 'e', 'l', 'p'] from rfl] at hdata
    injection hdata with _ h2
    exact hcl _ h2.symm
  · exact hh rfl

theorem findLong_skip (pre rest : List Argument) (name : String)
    (hpre : ∀ d ∈ pre, d.long_name ≠ name) :
    findLong (pre ++ rest) name = findLong rest name := by
  induction pre with
  | nil => rfl
  | cons p ps ih =>
    have hp : ¬(p.long_name == name) = true := by
      simp only [beq_iff_eq]
      exact hpre p (List.mem_cons_self p ps)
    have step : findLong ((p :: ps) ++ rest) name = findLong (ps ++ rest) name := by
      simp only [findLong, List.cons_append]
      exact List.find?_cons_of_neg _ hp
    rw [step]
    exact ih (fun d hd => hpre d (List.mem_cons_of_mem p hd))

theorem findLong_cons_self (d : Argument) (rest : List Argument) (name : String)
    (h : d.long_name = name) : findLong (d :: rest) name = some d := by
  simp only [findLong]
  rw [List.find?_cons_of_pos]
  simp [h]

theorem findShort_skip (pre rest : List Argument) (c : Char)
    (hpre : ∀ d ∈ pre, d.short_name ≠ some c) :
    findShort (pre ++ rest) c = findShort rest c := by
  induction pre with
  | nil => rfl
  | cons p ps ih =>
    have hp : ¬(p.short_name == some c) = true := by
      simp only [beq_iff_eq]
      exact hpre p (List.mem_cons_self p ps)
    have step : findShort ((p :: ps) ++ rest) c = findShort (ps ++ rest) c := by
      simp only [findShort, List.cons_append]
      exact List.find?_cons_of_neg _ hp
    rw [step]
    exact ih (fun d hd => hpre d (List.mem_cons_of_mem p hd))

theorem findShort_cons_self (d : Argument) (rest : List Argument) (c : Char)
    (h : d.short_name = some c) : findShort (d :: rest) c = some d := by
  simp only [findShort]
  rw [List.find?_cons_of_pos]
  simp [h]

/-- Claim C1: the claim states that `parse` never panics — that the
`Positional` cases of both prefixed branches are structurally
unreachable even when a positional definition's long (or short) name is
supplied as a prefixed token.  The code refutes this: the name lookups
search all definitions, including positional ones, so supplying a
registered positional's long name as `--input` (or its short name in a
cluster, `-p`) reaches the `unreachable!` and panics. -/
theorem positional_prefixed_token_panics :
    parse [⟨.Positional, none, "input", "", false⟩] ["program", "--input"]
      = .panicked
    ∧ parse [⟨.Positional, some 'p', "input", "", false⟩] ["program", "-p"]
      = .panicked :=
  ⟨by decide, by decide⟩

/-- Claim C2: for every registry and every token stream in which `--help`
or `-h` occurs at a position the token loop reaches (every earlier token
was processed without failure and without consuming the help token as an
option value), `parse` fails with `HelpRequested` — even if `help` or
`h` are registered argument names, because the help check precedes
prefix classification. -/
theorem help_requested_overrides (defs : List Argument) (prog tok : String)
    (pre rest : List String) (st : ParsedArgs)
    (hpre : parseLoop defs initParsed pre = .ok st)
    (htok : tok = "--help" ∨ tok = "-h") :
    parse defs (prog :: (pre ++ tok :: rest)) = .err .HelpRequested := by
  have h2 : parseLoop defs initParsed (pre ++ tok :: rest) = .err .HelpRequested := by
    rw [parseLoop_append defs (tok :: rest) pre initParsed st hpre,
        parseLoop_help defs st tok rest htok]
  simp only [parse, List.drop_succ_cons, List.drop_zero, h2]

/-- Witness for claim C2: a registry where `help`/`h` are registered
names, a clean prefix, and `--help` mid-stream. -/
theorem help_requested_overrides_witness :
    parse [⟨.Flag, some 'h', "help", "", false⟩]
        ("prog" :: (["pos"] ++ "--help" :: [])) = .err .HelpRequested :=
  help_requested_overrides [⟨.Flag, some 'h', "help", "", false⟩] "prog" "--help"
    ["pos"] [] ⟨[], [], ["pos"]⟩ (by decide) (Or.inl rfl)

/-- Claim C9: `get_value_as` returns `none` when the name is absent from
the options mapping, a parse failure wrapping the target type's own
error when the stored string does not parse, and the parsed value when
it does. -/
theorem get_value_as_spec {T E : Type} (f : String → Except E T)
    (pa : ParsedArgs) (name : String) :
    (lookupOption pa name = none → get_value_as f pa name = none)
    ∧ (∀ s t, lookupOption pa name = some s → f s = .ok t →
        get_value_as f pa name = some (.ok t))
    ∧ (∀ s e, lookupOption pa name = some s → f s = .error e →
        get_value_as f pa name = some (.error e)) := by
  refine ⟨fun h => ?_, fun s t h hf => ?_, fun s e h hf => ?_⟩
  · simp only [get_value_as, h]
  · simp only [get_value_as, h, hf]
  · simp only [get_value_as, h, hf]

/-- Witness for claim C9 on the `test_get_value_as` data: missing key,
parseable value, unparseable value. -/
theorem get_value_as_spec_witness :
    get_value_as natFromStr portRate "missing" = none
    ∧ get_value_as natFromStr portRate "port" = some (.ok 8080)
    ∧ get_value_as natFromStr portRate "rate" = some (.error "hello") :=
  ⟨(get_value_as_spec natFromStr portRate "missing").1 (by decide),
   (get_value_as_spec natFromStr portRate "port").2.1 "8080" 8080 (by decide) (by rfl),
   (get_value_as_spec natFromStr portRate "rate").2.2 "hello" "hello" (by decide) (by rfl)⟩

/-- Claim C3: for every token `--name` with `name` resolving to a
registered `Option` definition, the parser consumes the next token as
the value and records `long_name -> value`, overwriting any prior
binding (last occurrence wins under lookup); with no next token it
fails with `MissingValueForOption(long_name)`. -/
theorem long_option_consumes_value (defs : List Argument) (st : ParsedArgs)
    (tok name : String) (d : Argument)
    (hdata : tok.data = '-' :: '-' :: name.data)
    (hhelp : tok ≠ "--help")
    (hfind : findLong defs name = some d)
    (hkind : d.arg_type = .Option) :
    (∀ v rest2, parseLoop defs st (tok :: v :: rest2) =
        parseLoop defs (insertOption d.long_name v st) rest2)
    ∧ (∀ v, lookupOption (insertOption d.long_name v st) d.long_name = some v)
    ∧ parseLoop defs st [tok] = .err (.MissingValueForOption d.long_name) := by
  have hne := hne_of_long tok name.data hdata hhelp
  refine ⟨fun v rest2 => ?_, fun v => ?_, ?_⟩
  · exact parseLoop_long_opt_val defs st tok v rest2 name.data d hne hdata hfind hkind
  · simp [lookupOption, insertOption, List.lookup]
  · exact parseLoop_long_opt_end defs st tok name.data d hne hdata hfind hkind

/-- Witness for claim C3: `--output file.txt` records the value, the
recorded value shadows prior bindings under lookup, and a trailing
`--output` fails. -/
theorem long_option_consumes_value_witness :
    parseLoop [⟨.Option, some 'o', "output", "", false⟩] initParsed ["--output", "file.txt"]
      = parseLoop [⟨.Option, some 'o', "output", "", false⟩]
          (insertOption "output" "file.txt" initParsed) []
    ∧ lookupOption (insertOption "output" "file.txt" initParsed) "output" = some "file.txt"
    ∧ parseLoop [⟨.Option, some 'o', "output", "", false⟩] initParsed ["--output"]
      = .err (.MissingValueForOption "output") :=
  ⟨(long_option_consumes_value [⟨.Option, some 'o', "output", "", false⟩] initParsed
      "--output" "output" ⟨.Option, some 'o', "output", "", false⟩
      (by decide) (by decide) (by decide) rfl).1 "file.txt" [],
   (long_option_consumes_value [⟨.Option, some 'o', "output", "", false⟩] initParsed
      "--output" "output" ⟨.Option, some 'o', "output", "", false⟩
      (by decide) (by decide) (by decide) rfl).2.1 "file.txt",
   (long_option_consumes_value [⟨.Option, some 'o', "output", "", false⟩] initParsed
      "--output" "output" ⟨.Option, some 'o', "output", "", false⟩
      (by decide) (by decide) (by decide) rfl).2.2⟩

/-- Claim C4: in a short-flag cluster each character is resolved
independently left to right by short-name lookup: a `Flag` match
records its long name and continues; an `Option` match is legal only as
the last cluster character, in which case the next token is consumed as
its value (`MissingValueForOption` if absent); an `Option` match at a
non-final position fails with `OptionInMiddleOfGroup`; an unmatched
character fails with `UnknownArgument(character)`. -/
theorem short_cluster_resolution (defs : List Argument) :
    (∀ st c cs, findShort defs c = none →
        shortCluster defs st (c :: cs) = .err (.UnknownArgument (String.mk [c])))
    ∧ (∀ st c cs d, findShort defs c = some d → d.arg_type = .Flag →
        shortCluster defs st (c :: cs) = shortCluster defs (insertFlag d.long_name st) cs)
    ∧ (∀ st c cs d, findShort defs c = some d → d.arg_type = .Option → cs ≠ [] →
        shortCluster defs st (c :: cs) = .err (.OptionInMiddleOfGroup d.long_name))
    ∧ (∀ st c d, findShort defs c = some d → d.arg_type = .Option →
        shortCluster defs st [c] = .done st (some d))
    ∧ (∀ st st2 tok cluster rest d, tok ≠ "-h" → tok.data = '-' :: cluster →
        (∀ cs, cluster ≠ '-' :: cs) →
        shortCluster defs st cluster = .done st2 (some d) →
        (∀ v rest2, rest = v :: rest2 →
            parseLoop defs st (tok :: rest) =
              parseLoop defs (insertOption d.long_name v st2) rest2)
        ∧ (rest = [] →
            parseLoop defs st (tok :: rest) = .err (.MissingValueForOption d.long_name))) := by
  refine ⟨shortCluster_none defs,
          fun st c cs d h hk => shortCluster_flag defs st c cs d h hk,
          fun st c cs d h hk hcs => shortCluster_opt_mid defs st c cs d h hk hcs,
          fun st c d h hk => shortCluster_opt_last defs st c d h hk,
          fun st st2 tok cluster rest d hh hdata hcl hsc => ?_⟩
  have hne := hne_of_cluster tok cluster hdata hcl hh
  constructor
  · rintro v rest2 rfl
    rw [parseLoop_cluster defs st tok (v :: rest2) cluster hne hdata hcl, hsc]
  · rintro rfl
    rw [parseLoop_cluster defs st tok [] cluster hne hdata hcl, hsc]

/-- Witness for claim C4: an unmatched character, a mid-cluster option,
and a trailing option consuming the next token (`-vo file.txt`). -/
theorem short_cluster_resolution_witness :
    shortCluster [⟨.Option, some 'o', "output", "", false⟩,
        ⟨.Flag, some 'v', "verbose", "", false⟩] initParsed ['x']
      = .err (.UnknownArgument "x")
    ∧ shortCluster [⟨.Option, some 'o', "output", "", false⟩,
        ⟨.Flag, some 'v', "verbose", "", false⟩] initParsed ['o', 'v']
      = .err (.OptionInMiddleOfGroup "output")
    ∧ parseLoop [⟨.Option, some 'o', "output", "", false⟩,
        ⟨.Flag, some 'v', "verbose", "", false⟩] initParsed ["-vo", "file.txt"]
      = parseLoop [⟨.Option, some 'o', "output", "", false⟩,
          ⟨.Flag, some 'v', "verbose", "", false⟩]
          (insertOption "output" "file.txt" ⟨["verbose"], [], []⟩) [] :=
  ⟨(short_cluster_resolution [⟨.Option, some 'o', "output", "", false⟩,
      ⟨.Flag, some 'v', "verbose", "", false⟩]).1 initParsed 'x' [] (by decide),
   (short_cluster_resolution [⟨.Option, some 'o', "output", "", false⟩,
      ⟨.Flag, some 'v', "verbose", "", false⟩]).2.2.1 initParsed 'o' ['v']
      ⟨.Option, some 'o', "output", "", false⟩ (by decide) rfl (by simp),
   ((short_cluster_resolution [⟨.Option, some 'o', "output", "", false⟩,
      ⟨.Flag, some 'v', "verbose", "", false⟩]).2.2.2.2 initParsed ⟨["verbose"], [], []⟩
      "-vo" ['v', 'o'] ["file.txt"] ⟨.Option, some 'o', "output", "", false⟩
      (by decide) (by decide) (by simp) (by decide)).1 "file.txt" [] rfl⟩

/-- Claim C5: after the token stream is consumed without error, `parse`
checks every definition in registration order and returns
`MissingRequiredArgument(long_name)` of the first required unsatisfied
definition (flag: not in the flags set; option: not in the options
mapping; positional: positional sequence empty) without aggregating
failures; the positional check only tests that at least one positional
is present. -/
theorem validate_first_missing_required (defs : List Argument) (st : ParsedArgs) :
    validate_args defs st =
      (match defs.find? (fun d => d.required && !(was_provided d st)) with
       | some d => .error (.MissingRequiredArgument d.long_name)
       | none => .ok ())
    ∧ (∀ d : Argument, d.arg_type = .Positional →
        (was_provided d st = true ↔ st.positional ≠ []))
    ∧ (∀ (prog : String) (toks : List String) (st' : ParsedArgs) (e : ArgParseError),
        parseLoop defs initParsed toks = .ok st' →
        validate_args defs st' = .error e →
        parse defs (prog :: toks) = .err e) := by
  refine ⟨?_, fun d hd => ?_, fun prog toks st' e h1 h2 => ?_⟩
  · induction defs with
    | nil => rfl
    | cons d ds ih =>
      by_cases h : (d.required && !(was_provided d st)) = true
      · have hf : List.find? (fun d => d.required && !(was_provided d st)) (d :: ds)
            = some d := List.find?_cons_of_pos _ h
        rw [hf]
        simp only [validate_args, if_pos h]
      · have hf : List.find? (fun d => d.required && !(was_provided d st)) (d :: ds)
            = List.find? (fun d => d.required && !(was_provided d st)) ds :=
          List.find?_cons_of_neg _ h
        rw [hf]
        simp only [validate_args, if_neg h]
        exact ih
  · cases hpos : st.positional <;> simp [was_provided, hd, hpos]
  · simp only [parse, List.drop_succ_cons, List.drop_zero, h1, h2]

/-- Witness for claim C5: two required definitions both unsatisfied — the
first registered one is reported; a positional definition counts as
provided as soon as any positional is present. -/
theorem validate_first_missing_required_witness :
    parse [⟨.Flag, none, "alpha", "", true⟩, ⟨.Option, none, "beta", "", true⟩] ["prog"]
      = .err (.MissingRequiredArgument "alpha")
    ∧ (was_provided ⟨.Positional, none, "input", "", true⟩ ⟨[], [], ["x"]⟩ = true
        ↔ (["x"] : List String) ≠ []) :=
  ⟨(validate_first_missing_required
      [⟨.Flag, none, "alpha", "", true⟩, ⟨.Option, none, "beta", "", true⟩] initParsed).2.2
      "prog" [] initParsed (.MissingRequiredArgument "alpha") (by decide) (by rfl),
   (validate_first_missing_required [] ⟨[], [], ["x"]⟩).2.1
      ⟨.Positional, none, "input", "", true⟩ rfl⟩

/-- Claim C6: lookups resolve to the first-registered matching definition
for both long and short names, so later duplicates are silently
shadowed, and registration appends unconditionally — no uniqueness
check ever rejects a duplicate. -/
theorem duplicate_names_first_match_wins :
    (∀ (pre mid post : List Argument) (d1 d2 : Argument) (name : String),
        (∀ d ∈ pre, d.long_name ≠ name) → d1.long_name = name → d2.long_name = name →
        findLong (pre ++ d1 :: (mid ++ d2 :: post)) name = some d1)
    ∧ (∀ (pre mid post : List Argument) (d1 d2 : Argument) (c : Char),
        (∀ d ∈ pre, d.short_name ≠ some c) → d1.short_name = some c →
        d2.short_name = some c →
        findShort (pre ++ d1 :: (mid ++ d2 :: post)) c = some d1)
    ∧ (∀ (defs : List Argument) (n : String) (k : ArgumentKind),
        (addArgument defs n k).length = defs.length + 1) := by
  refine ⟨fun pre mid post d1 d2 name hpre h1 h2 => ?_,
          fun pre mid post d1 d2 c hpre h1 h2 => ?_,
          fun defs n k => ?_⟩
  · rw [findLong_skip pre _ name hpre]
    exact findLong_cons_self d1 _ name h1
  · rw [findShort_skip pre _ c hpre]
    exact findShort_cons_self d1 _ c h1
  · simp [addArgument]

/-- Witness for claim C6: two definitions sharing long name `x` and short
name `x` — both lookups return the first; registering a duplicate still
appends. -/
theorem duplicate_names_first_match_wins_witness :
    findLong [⟨.Flag, some 'x', "x", "first", false⟩,
        ⟨.Option, some 'x', "x", "second", false⟩] "x"
      = some ⟨.Flag, some 'x', "x", "first", false⟩
    ∧ findShort [⟨.Flag, some 'x', "x", "first", false⟩,
        ⟨.Option, some 'x', "x", "second", false⟩] 'x'
      = some ⟨.Flag, some 'x', "x", "first", false⟩
    ∧ (addArgument [⟨.Flag, some 'x', "x", "first", false⟩] "x" .Flag).length = 2 :=
  ⟨duplicate_names_first_match_wins.1 [] [] [] ⟨.Flag, some 'x', "x", "first", false⟩
      ⟨.Option, some 'x', "x", "second", false⟩ "x" (by simp) rfl rfl,
   duplicate_names_first_match_wins.2.1 [] [] [] ⟨.Flag, some 'x', "x", "first", false⟩
      ⟨.Option, some 'x', "x", "second", false⟩ 'x' (by simp) rfl rfl,
   duplicate_names_first_match_wins.2.2 [⟨.Flag, some 'x', "x", "first", false⟩] "x" .Flag⟩

/-- Claim C7: an unregistered long token `--name` fails with
`UnknownArgument` carrying the remainder with the `--` stripped, an
unregistered short-cluster character fails with `UnknownArgument`
carrying that single character, and loop failures propagate to `parse`
unchanged. -/
theorem unknown_argument_errors (defs : List Argument) :
    (∀ (st : ParsedArgs) (tok name : String) (rest : List String),
        tok.data = '-' :: '-' :: name.data → tok ≠ "--help" →
        findLong defs name = none →
        parseLoop defs st (tok :: rest) = .err (.UnknownArgument name))
    ∧ (∀ (st : ParsedArgs) (tok : String) (c : Char) (cs : List Char)
          (rest : List String),
        tok ≠ "-h" → tok.data = '-' :: c :: cs → c ≠ '-' →
        findShort defs c = none →
        parseLoop defs st (tok :: rest) = .err (.UnknownArgument (String.mk [c])))
    ∧ (∀ (prog : String) (toks : List String) (e : ArgParseError),
        parseLoop defs initParsed toks = .err e →
        parse defs (prog :: toks) = .err e) := by
  refine ⟨fun st tok name rest hdata hhelp hfind => ?_,
          fun st tok c cs rest hh hdata hc hfind => ?_,
          fun prog toks e h => ?_⟩
  · exact parseLoop_long_none defs st tok rest name.data
      (hne_of_long tok name.data hdata hhelp) hdata hfind
  · have hcl : ∀ cs2, (c :: cs) ≠ '-' :: cs2 := by
      intro cs2 h
      injection h with h1 _
      exact hc h1
    have hne := hne_of_cluster tok (c :: cs) hdata hcl hh
    rw [parseLoop_cluster defs st tok rest (c :: cs) hne hdata hcl,
        shortCluster_none defs st c cs hfind]
  · simp only [parse, List.drop_succ_cons, List.drop_zero, h]

/-- Witness for claim C7: `--bogus` and `-x` against an empty registry,
at the loop and through `parse`. -/
theorem unknown_argument_errors_witness :
    parseLoop [] initParsed ["--bogus"] = .err (.UnknownArgument "bogus")
    ∧ parseLoop [] initParsed ["-x"] = .err (.UnknownArgument "x")
    ∧ parse [] ["prog", "--bogus"] = .err (.UnknownArgument "bogus") :=
  ⟨(unknown_argument_errors []).1 initParsed "--bogus" "bogus" []
      (by decide) (by decide) (by decide),
   (unknown_argument_errors []).2.1 initParsed "-x" 'x' [] []
      (by decide) (by decide) (by decide) (by decide),
   (unknown_argument_errors []).2.2 "prog" ["--bogus"] (.UnknownArgument "bogus")
      (by decide)⟩

/-- Claim C8: the claim states `generate_help` returns exactly the spec's
template (usage line, then the `Options:` and `Arguments:` sections,
nothing else).  The code refutes this: it first emits a
`"{name} {version}"` line taken from the package manifest, so on the
registry of the code's own formatting test the output is that line
followed by the template — and therefore differs from the template.
(The code's own test expects output starting with the usage line, so
the code contradicts its test.) -/
theorem generate_help_not_spec_template :
    generate_help "sarpa" "0.1.0" helpTestDefs
      = "sarpa 0.1.0\nUsage: sarpa [OPTIONS] [ARGUMENTS]\n\nOptions:\n  -a, all                  List all items.\n  -o, output               Specify output file.\n\nArguments:\n  input                  The input file to process.\n"
    ∧ specHelpTemplate "sarpa" helpTestDefs
      = "Usage: sarpa [OPTIONS] [ARGUMENTS]\n\nOptions:\n  -a, all                  List all items.\n  -o, output               Specify output file.\n\nArguments:\n  input                  The input file to process.\n"
    ∧ generate_help "sarpa" "0.1.0" helpTestDefs
      = "sarpa 0.1.0\n" ++ specHelpTemplate "sarpa" helpTestDefs
    ∧ generate_help "sarpa" "0.1.0" helpTestDefs ≠ specHelpTemplate "sarpa" helpTestDefs := by
  refine ⟨?_, ?_, ?_, ?_⟩
  · rfl
  · rfl
  · rfl
  · decide

/-- Claim C10: a token that is exactly `-` is silently dropped: the char
cluster is empty, so the loop records nothing, raises no error, and
does not touch the positional sequence — at the loop level and through
`parse`. -/
theorem lone_dash_silently_dropped (defs : List Argument) (st : ParsedArgs)
    (rest : List String) (prog : String) :
    parseLoop defs st ("-" :: rest) = parseLoop defs st rest
    ∧ parse defs (prog :: "-" :: rest) = parse defs (prog :: rest) := by
  have h : ∀ s : ParsedArgs, parseLoop defs s ("-" :: rest) = parseLoop defs s rest := by
    intro s
    rw [parseLoop_cluster defs s "-" rest [] (by decide) rfl (by intro cs; simp)]
    rfl
  exact ⟨h st, by simp only [parse, List.drop_succ_cons, List.drop_zero, h initParsed]⟩

end Sarpa
